import Mathlib

/-!
Shallow embedding of the lumibot market-data core
(`src/lumibot/entities/bars.py` and `src/lumibot/data_sources/alpaca_data.py`)
and proofs about the claims of its specification.

Conventions of the embedding:
* pandas DataFrames become `DataFrame`: an ordered list of rows together with
  per-frame column-presence flags for the columns that are not always present
  (`dividend`, `stock_splits` and the derived columns).
* timestamps become `Nat` epoch seconds (the index is timezone-aware in the
  source; instants compare the same way).
* numeric (float) cells become `ℚ`; a float NaN cell is `none` in an
  `Option ℚ` column (`pct_change` produces NaN on the first row, and the
  `return` column inherits it).  Division by zero, which produces inf/NaN in
  pandas, is outside the modelled domain: theorems that depend on the value of
  a quotient are stated for series whose relevant denominators are nonzero.
* a raised Python exception becomes the `Except.error` branch of the result.
-/

namespace Lumibot

/-- Modelled from the spec: the asset/symbol identity object is an external
collaborator that is not part of the sources; per the spec it exposes at least
a `symbol` field, and its string rendering (used when it is interpolated into
an error message) is modelled as that symbol. -/
structure Asset where
  symbol : String
deriving DecidableEq

/-- Modelled from the spec: the `Bar` record entity (`lumibot/entities/bar.py`
is not among the sources).  Per the spec its shape is
{timestamp, open, high, low, close, volume, dividend, stock_splits} with
dividend and stock_splits defaulting to 0.  `open_` stands for the source's
`open` (a Lean keyword); `timestamp` is in epoch seconds. -/
structure Bar where
  timestamp : Nat
  open_ : ℚ
  high : ℚ
  low : ℚ
  close : ℚ
  volume : ℚ
  dividend : ℚ
  stock_splits : ℚ
deriving DecidableEq

/-- One row of a normalized frame.  The base OHLCV cells are always present;
the cells of the optional columns (`dividend`, `stock_splits`,
`price_change`, `dividend_yield`, `ret`) are meaningful only when the
enclosing frame's corresponding presence flag is set.  `ret` stands for the
source's `return` column (a Lean keyword).  `price_change` and `ret` are
`Option ℚ` because pandas `pct_change` yields NaN on the first row and the
row-wise sum `return = dividend_yield + price_change` propagates it. -/
structure Row where
  timestamp : Nat
  open_ : ℚ
  high : ℚ
  low : ℚ
  close : ℚ
  volume : ℚ
  dividend : ℚ
  stock_splits : ℚ
  price_change : Option ℚ
  dividend_yield : ℚ
  ret : Option ℚ
deriving DecidableEq

instance : Inhabited Row :=
  ⟨{ timestamp := 0, open_ := 0, high := 0, low := 0, close := 0, volume := 0,
     dividend := 0, stock_splits := 0, price_change := none,
     dividend_yield := 0, ret := none }⟩

/-- A pandas DataFrame as the `Bars` code uses it: rows indexed by timestamp,
plus flags recording which optional columns the frame actually has. -/
structure DataFrame where
  rows : List Row
  hasDividend : Bool
  hasStockSplits : Bool
  hasPriceChange : Bool
  hasDividendYield : Bool
  hasReturn : Bool
deriving DecidableEq

/-- The exception raised for an empty result
(`class NoBarDataFound(Exception)`).  As in the source, the constructor only
formats a message string; no structured fields are stored on the exception. -/
structure NoBarDataFound where
  message : String
deriving DecidableEq

/-- Embeds `NoBarDataFound.__init__`: builds the formatted message from the source
and the asset (the asset is interpolated via its string rendering). -/
def noBarDataFound (source : String) (asset : Asset) : NoBarDataFound :=
  ⟨source ++ " did not return data for symbol " ++ asset.symbol ++
    ". Make sure there is no symbol typo or use another data source"⟩

/-- The raw payload a `Bars` object may keep (`raw=` argument): either the
bar list handed to `parse_bar_list` or the provider frame. -/
inductive RawPayload where
  | barList (l : List Bar)
  | frame (df : DataFrame)
deriving DecidableEq

/-- The `Bars` value object. -/
structure Bars where
  df : DataFrame
  source : String
  asset : Asset
  symbol : String
  raw : Option RawPayload
deriving DecidableEq

/-- Embeds `Bars.__init__`: rejects an empty frame with `NoBarDataFound(source,
asset)`, otherwise stores the frame, uppercases the source, and derives the
symbol from the asset, uppercased. -/
def Bars.mk? (df : DataFrame) (source : String) (asset : Asset)
    (raw : Option RawPayload) : Except NoBarDataFound Bars :=
  if df.rows.length = 0 then
    .error (noBarDataFound source asset)
  else
    .ok { df := df, source := source.toUpper, asset := asset,
          symbol := asset.symbol.toUpper, raw := raw }

/-- Embeds `Series.pct_change()` (period 1): NaN for the first element, then the
fractional change relative to the immediately preceding element. -/
def pctChange (xs : List ℚ) : List (Option ℚ) :=
  match xs with
  | [] => []
  | x :: rest => none :: pctChangeGo x rest
where
  pctChangeGo : ℚ → List ℚ → List (Option ℚ)
  | _, [] => []
  | prev, x :: rest => some ((x - prev) / prev) :: pctChangeGo x rest

/-- One row updated with the derived cells: `price_change` from the supplied
`pct_change` cell, `dividend_yield = dividend / close`, and
`return = dividend_yield + price_change` (NaN-propagating). -/
def deriveRow (r : Row) (pc : Option ℚ) : Row :=
  { r with price_change := pc,
           dividend_yield := r.dividend / r.close,
           ret := pc.map (fun p => r.dividend / r.close + p) }

/-- Writes the derived columns over a row list, pairing each row with its
`pct_change` cell (the column-wise assignments of the source, row-wise). -/
def applyDerived : List Row → List (Option ℚ) → List Row
  | [], _ => []
  | _ :: _, [] => []
  | r :: rs, pc :: pcs => deriveRow r pc :: applyDerived rs pcs

/-- The row a bar record contributes to the frame `parse_bar_list` builds
(before the derived columns are written). -/
def Bar.toRow (b : Bar) : Row :=
  { timestamp := b.timestamp, open_ := b.open_, high := b.high, low := b.low,
    close := b.close, volume := b.volume, dividend := b.dividend,
    stock_splits := b.stock_splits, price_change := none,
    dividend_yield := 0, ret := none }

/-- The frame `Bars.parse_bar_list` assembles: the bar records as rows indexed
by timestamp, then `price_change`, `dividend_yield` and `return` computed in
that order. -/
def parseFrame (bar_list : List Bar) : DataFrame :=
  let rows0 := bar_list.map Bar.toRow
  { rows := applyDerived rows0 (pctChange (rows0.map (·.close))),
    hasDividend := true, hasStockSplits := true, hasPriceChange := true,
    hasDividendYield := true, hasReturn := true }

/-- Embeds `Bars.parse_bar_list(bar_list, source, asset)`. -/
def parse_bar_list (bar_list : List Bar) (source : String) (asset : Asset) :
    Except NoBarDataFound Bars :=
  Bars.mk? (parseFrame bar_list) source asset (some (.barList bar_list))

/-- Embeds `Bars.split()`: one `Bar` record per row; the timestamp is the row's
index as epoch seconds, and `row.get("dividend", 0)` / `row.get
("stock_splits", 0)` substitute 0 when the frame lacks the column. -/
def Bars.split (b : Bars) : List Bar :=
  b.df.rows.map fun r =>
    { timestamp := r.timestamp, open_ := r.open_, high := r.high, low := r.low,
      close := r.close, volume := r.volume,
      dividend := if b.df.hasDividend then r.dividend else 0,
      stock_splits := if b.df.hasStockSplits then r.stock_splits else 0 }

/-- Embeds `Bars.filter(start, end)`: keeps the rows whose index is `>= start` (when
a start datetime is given) and `<= end` (when an end datetime is given); both
bounds inclusive; returns the filtered frame (a read view), not a new `Bars`.
`end_` stands for the source's `end` parameter (a Lean keyword). -/
def Bars.filterDf (b : Bars) (start end_ : Option Nat) : DataFrame :=
  let rows1 := match start with
    | some s => b.df.rows.filter (fun r => s ≤ r.timestamp)
    | none => b.df.rows
  let rows2 := match end_ with
    | some e => rows1.filter (fun r => r.timestamp ≤ e)
    | none => rows1
  { b.df with rows := rows2 }

/-- Embeds `Series.pct_change(k)`: cell `i` is NaN (`none`) for `i < k`, otherwise
the fractional change of cell `i` relative to cell `i - k`. -/
def pctChangeK (k : Nat) (xs : List ℚ) : List (Option ℚ) :=
  (List.range xs.length).map fun i =>
    if k ≤ i then some ((xs.getD i 0 - xs.getD (i - k) 0) / xs.getD (i - k) 0)
    else none

/-- Embeds `Bars.get_momentum(start, end)`: 0 for an empty filtered window,
otherwise the last cell of `close.pct_change(n_rows - 1)` over the window
(`some` models a float, `none` a NaN). -/
def Bars.get_momentum (b : Bars) (start end_ : Option Nat) : Option ℚ :=
  let rows := (b.filterDf start end_).rows
  if rows.length = 0 then some 0
  else (pctChangeK (rows.length - 1) (rows.map (·.close))).getLastD none

/-- Embeds `Bars.get_total_volume(start, end)`: 0 for an empty filtered window,
otherwise the sum of the window's `volume` column. -/
def Bars.get_total_volume (b : Bars) (start end_ : Option Nat) : ℚ :=
  let rows := (b.filterDf start end_).rows
  if rows.length = 0 then 0
  else (rows.map (·.volume)).sum

/-- The bucket (group key) a timestamp falls into under a fixed bucket width
`w` in seconds (`pd.Grouper(freq=frequency)` with an epoch-aligned origin). -/
def bucketKey (w t : Nat) : Nat := t / w * w

/-- The rows of a frame that fall into bucket `k`. -/
def groupRows (w k : Nat) (rows : List Row) : List Row :=
  rows.filter (fun r => bucketKey w r.timestamp == k)

/-- The aggregated row of one bucket
(`agg({open: first, close: last, low: min, high: max, volume: sum})`):
`none` models the all-NaN row an empty bucket produces. -/
def aggRow (k : Nat) : List Row → Option Row
  | [] => none
  | g0 :: gs =>
    some { timestamp := k, open_ := g0.open_,
           close := ((g0 :: gs).getLastD g0).close,
           low := (gs.map (·.low)).foldl min g0.low,
           high := (gs.map (·.high)).foldl max g0.high,
           volume := ((g0 :: gs).map (·.volume)).sum,
           dividend := 0, stock_splits := 0, price_change := none,
           dividend_yield := 0, ret := none }

/-- The smallest timestamp of a row list (`df.index.min()`); 0 when empty. -/
def tsMin (rows : List Row) : Nat :=
  match rows with
  | [] => 0
  | r :: rs => (rs.map (·.timestamp)).foldl min r.timestamp

/-- The largest timestamp of a row list (`df.index.max()`); 0 when empty. -/
def tsMax (rows : List Row) : Nat :=
  match rows with
  | [] => 0
  | r :: rs => (rs.map (·.timestamp)).foldl max r.timestamp

/-- The bucket keys `pd.Grouper` generates: every bucket from the one holding
the smallest index value to the one holding the largest, empty buckets
included. -/
def aggKeys (w : Nat) (rows : List Row) : List Nat :=
  match rows with
  | [] => []
  | _ :: _ =>
    let k0 := bucketKey w (tsMin rows)
    let k1 := bucketKey w (tsMax rows)
    (List.range ((k1 - k0) / w + 1)).map (fun i => k0 + i * w)

/-- The frame `aggregate_bars` builds: group by bucket, aggregate
first/last/min/max/sum per bucket, then `dropna()` removes the all-NaN rows
of the empty buckets.  The result frame has only the five aggregated
columns. -/
def aggregateDf (w : Nat) (df : DataFrame) : DataFrame :=
  { rows := (aggKeys w df.rows).filterMap
      (fun k => aggRow k (groupRows w k df.rows)),
    hasDividend := false, hasStockSplits := false, hasPriceChange := false,
    hasDividendYield := false, hasReturn := false }

/-- Embeds `Bars.aggregate_bars(frequency)` with the frequency already translated to
a bucket width `w` in seconds: builds the aggregated frame and re-runs the
`Bars` constructor on it with the receiver's source and asset. -/
def Bars.aggregate_bars (b : Bars) (w : Nat) : Except NoBarDataFound Bars :=
  Bars.mk? (aggregateDf w b.df) b.source b.asset none

/-- A Python-level error escaping the alpaca parse path: either the domain
error, or the `TypeError` Python raises when a call omits required
positional arguments. -/
inductive PyError where
  | noBarData (e : NoBarDataFound)
  | typeError (msg : String)
deriving DecidableEq

/-- A Python call of the `Bars` constructor with each argument either
supplied or omitted: omitting `source` or `asset` raises `TypeError` before
the constructor body runs. -/
def callBars (df : DataFrame) (source : Option String) (asset : Option Asset)
    (raw : Option RawPayload) : Except PyError Bars :=
  match source, asset with
  | some s, some a =>
    match Bars.mk? df s a raw with
    | .ok b => .ok b
    | .error e => .error (.noBarData e)
  | _, _ =>
    .error (.typeError
      "__init__() missing 2 required positional arguments: source and asset")

/-- The column derivation of `AlpacaData._parse_source_symbol_bars`:
`price_change = close.pct_change()`, the `dividend` column created as the
constant 0, `dividend_yield = dividend / close`, `return = dividend_yield +
price_change`. -/
def deriveAlpacaFrame (response : DataFrame) : DataFrame :=
  let rows0 := response.rows.map (fun r => { r with dividend := 0 })
  { rows := applyDerived rows0 (pctChange (rows0.map (·.close))),
    hasDividend := true, hasStockSplits := response.hasStockSplits,
    hasPriceChange := true, hasDividendYield := true, hasReturn := true }

/-- Embeds `AlpacaData._parse_source_symbol_bars(response)`: derives the columns on
a copy of the response frame, then calls `Bars(df, raw=response)` — without
the `source` and `asset` arguments the constructor requires. -/
def parse_source_symbol_bars (response : DataFrame) : Except PyError Bars :=
  callBars (deriveAlpacaFrame response) none none (some (.frame response))

/-- Embeds `AlpacaData._parse_source_bars(response)`: builds the per-symbol mapping
by parsing each symbol's frame in turn; the first raised error aborts the
loop. -/
def parse_source_bars (response : List (String × DataFrame)) :
    Except PyError (List (String × Bars)) :=
  match response with
  | [] => .ok []
  | (sym, df) :: rest => do
    let b ← parse_source_symbol_bars df
    let r ← parse_source_bars rest
    .ok ((sym, b) :: r)

/-- A Python `datetime` at second granularity: calendar/clock components plus
an optional fixed UTC offset in minutes standing for `tzinfo` (`none` is a
naive datetime). -/
structure PyDatetime where
  year : Nat
  month : Nat
  day : Nat
  hour : Nat
  minute : Nat
  second : Nat
  tzOffsetMinutes : Option Int
deriving DecidableEq

/-- The two low digits of `n`, zero-padded. -/
def pad2 (n : Nat) : List Char :=
  [Nat.digitChar (n / 10 % 10), Nat.digitChar (n % 10)]

/-- The four low digits of `n`, zero-padded. -/
def pad4 (n : Nat) : List Char :=
  [Nat.digitChar (n / 1000 % 10), Nat.digitChar (n / 100 % 10),
   Nat.digitChar (n / 10 % 10), Nat.digitChar (n % 10)]

/-- The `+HH:MM` / `-HH:MM` rendering of a UTC offset in minutes. -/
def offsetChars (off : Int) : List Char :=
  (if off < 0 then '-' else '+') ::
    (pad2 (off.natAbs / 60) ++ [':'] ++ pad2 (off.natAbs % 60))

/-- Embeds `pd.Timestamp(...).isoformat()` for an aware second-granularity
timestamp: `YYYY-MM-DDTHH:MM:SS±HH:MM`. -/
def isoformat (dt : PyDatetime) (off : Int) : String :=
  ⟨pad4 dt.year ++ ['-'] ++ pad2 dt.month ++ ['-'] ++ pad2 dt.day ++ ['T'] ++
   pad2 dt.hour ++ [':'] ++ pad2 dt.minute ++ [':'] ++ pad2 dt.second ++
   offsetChars off⟩

/-- Day of week of a calendar date, 0 = Sunday (Zeller's congruence). -/
def dayOfWeek (y m d : Nat) : Nat :=
  let yy := if m < 3 then y - 1 else y
  let mm := if m < 3 then m + 12 else m
  (d + 13 * (mm + 1) / 5 + yy + yy / 4 + 700 - yy / 100 + yy / 400 + 6) % 7

/-- The calendar day of the `nth` given weekday (0 = Sunday) of a month. -/
def nthWeekday (y m weekday nth : Nat) : Nat :=
  let first := dayOfWeek y m 1
  1 + (weekday + 7 - first) % 7 + 7 * (nth - 1)

/-- Modelled from the spec: localization of a naive wall-clock time to the
fixed reference market timezone "America/New_York" (the `pytz` timezone data
is an external collaborator).  The offset is −4h during US daylight saving
(from 2:00 on the second Sunday of March to 2:00 on the first Sunday of
November) and −5h otherwise. -/
def nyOffsetMinutes (dt : PyDatetime) : Int :=
  let afterStart :=
    3 < dt.month ∨
      (dt.month = 3 ∧
        (nthWeekday dt.year 3 0 2 < dt.day ∨
          (nthWeekday dt.year 3 0 2 = dt.day ∧ 2 ≤ dt.hour)))
  let beforeEnd :=
    dt.month < 11 ∨
      (dt.month = 11 ∧
        (dt.day < nthWeekday dt.year 11 0 1 ∨
          (dt.day = nthWeekday dt.year 11 0 1 ∧ dt.hour < 2)))
  if afterStart ∧ beforeEnd then -240 else -300

/-- Embeds `AlpacaData.format_datetime(dt)`: an aware datetime is formatted as-is
(`pd.Timestamp(dt).isoformat()`); a naive one is first localized to
"America/New_York" (`pd.Timestamp(dt, tz=self.NY_TIMEZONE).isoformat()`). -/
def format_datetime (dt : PyDatetime) : String :=
  match dt.tzOffsetMinutes with
  | some off => isoformat dt off
  | none => isoformat dt (nyOffsetMinutes dt)

/-- The `end` keyword argument `AlpacaData._pull_source_bars` hands to the
provider: absent without a timeshift, otherwise `format_datetime` applied to
the shifted end-of-window datetime (`datetime.now() - timeshift`, which this
embedding takes as the already-computed argument). -/
def pull_source_bars_end (endDt : Option PyDatetime) : Option String :=
  endDt.map format_datetime

/-- Recognizer for the second-granularity ISO-8601 shape
`YYYY-MM-DDTHH:MM:SS±HH:MM` the boundary contract requires. -/
def isIso8601 (cs : List Char) : Bool :=
  match cs with
  | [y1, y2, y3, y4, c1, m1, m2, c2, d1, d2, t, h1, h2, c3, mi1, mi2, c4,
     s1, s2, sg, o1, o2, c5, o3, o4] =>
    (c1 == '-') && (c2 == '-') && (t == 'T') && (c3 == ':') && (c4 == ':') &&
    (c5 == ':') && (sg == '+' || sg == '-') &&
    ([y1, y2, y3, y4, m1, m2, d1, d2, h1, h2, mi1, mi2, s1, s2,
      o1, o2, o3, o4].all Char.isDigit)
  | _ => false

/-! ### Helper lemmas -/

theorem getD_map_of_lt {α β : Type} (f : α → β) (l : List α) (i : Nat)
    (d : β) (d' : α) (h : i < l.length) :
    (l.map f).getD i d = f (l.getD i d') := by
  rw [List.getD_eq_getElem?_getD, List.getD_eq_getElem?_getD,
      List.getElem?_map f l i, List.getElem?_eq_getElem h]
  rfl

theorem getD_eq_getLastD {α : Type} [Inhabited α] (l : List α) (d : α) :
    l.getD (l.length - 1) d = l.getLastD d := by
  rw [List.getD_eq_getElem?_getD, List.getLastD_eq_getLast? d l,
      List.getLast?_eq_getElem? l]

theorem pctChangeGo_length (prev : ℚ) (xs : List ℚ) :
    (pctChange.pctChangeGo prev xs).length = xs.length := by
  induction xs generalizing prev with
  | nil => rfl
  | cons x rest ih => simp [pctChange.pctChangeGo, ih]

theorem pctChange_length (xs : List ℚ) : (pctChange xs).length = xs.length := by
  cases xs with
  | nil => rfl
  | cons x rest => simp [pctChange, pctChangeGo_length]

theorem pctChangeGo_getD (xs : List ℚ) (prev : ℚ) (i : Nat)
    (h : i < xs.length) :
    (pctChange.pctChangeGo prev xs).getD i none =
      some ((xs.getD i 0 - (if i = 0 then prev else xs.getD (i - 1) 0)) /
        (if i = 0 then prev else xs.getD (i - 1) 0)) := by
  induction xs generalizing prev i with
  | nil => simp at h
  | cons x rest ih =>
    cases i with
    | zero => simp [pctChange.pctChangeGo]
    | succ n =>
      have hn : n < rest.length := by simpa using h
      have := ih x n hn
      simp only [pctChange.pctChangeGo, List.getD_cons_succ]
      rw [this]
      cases n with
      | zero => simp
      | succ m => simp

theorem pctChange_getD_zero (x : ℚ) (rest : List ℚ) :
    (pctChange (x :: rest)).getD 0 none = none := rfl

theorem pctChange_getD_succ (xs : List ℚ) (i : Nat) (h0 : 0 < i)
    (h : i < xs.length) :
    (pctChange xs).getD i none =
      some ((xs.getD i 0 - xs.getD (i - 1) 0) / xs.getD (i - 1) 0) := by
  cases xs with
  | nil => simp at h
  | cons x rest =>
    cases i with
    | zero => exact absurd h0 (by simp)
    | succ n =>
      have hn : n < rest.length := by simpa using h
      simp only [pctChange, List.getD_cons_succ]
      rw [pctChangeGo_getD rest x n hn]
      cases n with
      | zero => simp
      | succ m => simp

theorem applyDerived_length (rows : List Row) (pcs : List (Option ℚ)) :
    (applyDerived rows pcs).length = min rows.length pcs.length := by
  induction rows generalizing pcs with
  | nil => simp [applyDerived]
  | cons r rs ih =>
    cases pcs with
    | nil => simp [applyDerived]
    | cons pc pcs' => simp [applyDerived, ih, Nat.succ_min_succ]

theorem applyDerived_getD (rows : List Row) (pcs : List (Option ℚ)) (i : Nat)
    (d : Row) (h1 : i < rows.length) (h2 : i < pcs.length) :
    (applyDerived rows pcs).getD i d =
      deriveRow (rows.getD i default) (pcs.getD i none) := by
  induction rows generalizing pcs i with
  | nil => simp at h1
  | cons r rs ih =>
    cases pcs with
    | nil => simp at h2
    | cons pc pcs' =>
      cases i with
      | zero => simp [applyDerived]
      | succ n =>
        simp only [applyDerived, List.getD_cons_succ]
        exact ih pcs' n (by simpa using h1) (by simpa using h2)

theorem applyDerived_map {α : Type} (rows : List Row) (pcs : List (Option ℚ))
    (hlen : rows.length = pcs.length) (f : Row → α)
    (hf : ∀ r pc, f (deriveRow r pc) = f r) :
    (applyDerived rows pcs).map f = rows.map f := by
  induction rows generalizing pcs with
  | nil => simp [applyDerived]
  | cons r rs ih =>
    cases pcs with
    | nil => simp at hlen
    | cons pc pcs' =>
      simp only [applyDerived, List.map_cons, hf]
      rw [ih pcs' (by simpa using hlen)]

theorem mk?_ok (df : DataFrame) (s : String) (a : Asset)
    (raw : Option RawPayload) (b : Bars) (h : Bars.mk? df s a raw = .ok b) :
    b.df = df ∧ b.source = s.toUpper ∧ b.asset = a ∧
      b.symbol = a.symbol.toUpper ∧ b.raw = raw ∧ df.rows ≠ [] := by
  unfold Bars.mk? at h
  split at h
  · simp at h
  · next hne =>
    cases h
    exact ⟨rfl, rfl, rfl, rfl, rfl,
      List.ne_nil_of_length_pos (Nat.pos_of_ne_zero hne)⟩

theorem mk?_ok_of_ne_nil (df : DataFrame) (s : String) (a : Asset)
    (raw : Option RawPayload) (h : df.rows ≠ []) :
    Bars.mk? df s a raw =
      .ok { df := df, source := s.toUpper, asset := a,
            symbol := a.symbol.toUpper, raw := raw } := by
  unfold Bars.mk?
  simp [List.length_eq_zero, h]

theorem derived_getD (rows0 : List Row) (i : Nat) (h : i < rows0.length) :
    (applyDerived rows0 (pctChange (rows0.map (·.close)))).getD i default =
      deriveRow (rows0.getD i default)
        ((pctChange (rows0.map (·.close))).getD i none) := by
  apply applyDerived_getD
  · exact h
  · rw [pctChange_length, List.length_map]; exact h

theorem derived_dividend_yield (rows0 : List Row) (i : Nat)
    (h : i < rows0.length) :
    let rows := applyDerived rows0 (pctChange (rows0.map (·.close)))
    (rows.getD i default).dividend_yield =
        (rows.getD i default).dividend / (rows.getD i default).close ∧
      (rows.getD i default).ret =
        (rows.getD i default).price_change.map
          (fun p => (rows.getD i default).dividend_yield + p) ∧
      (rows.getD i default).dividend = (rows0.getD i default).dividend := by
  intro rows
  show ((applyDerived rows0 (pctChange (rows0.map (·.close)))).getD i
    default).dividend_yield = _ ∧ _ ∧ _
  rw [derived_getD rows0 i h]
  simp [deriveRow]

theorem derived_price_change_zero (rows0 : List Row) (h : rows0 ≠ []) :
    ((applyDerived rows0 (pctChange (rows0.map (·.close)))).getD 0
      default).price_change = none := by
  cases rows0 with
  | nil => exact absurd rfl h
  | cons r rs =>
    rw [derived_getD (r :: rs) 0 (by simp)]
    simp [deriveRow, pctChange]

theorem derived_price_change_succ (rows0 : List Row) (i : Nat) (h0 : 0 < i)
    (h : i < rows0.length) :
    let rows := applyDerived rows0 (pctChange (rows0.map (·.close)))
    (rows.getD i default).price_change =
      some (((rows.getD i default).close - (rows.getD (i - 1) default).close) /
            (rows.getD (i - 1) default).close) := by
  intro rows
  have h' : i - 1 < rows0.length := lt_of_le_of_lt (Nat.sub_le i 1) h
  have hm : i < (rows0.map (·.close)).length := by
    rw [List.length_map]; exact h
  show ((applyDerived rows0 (pctChange (rows0.map (·.close)))).getD i
    default).price_change = _
  rw [derived_getD rows0 i h, derived_getD rows0 (i - 1) h',
      pctChange_getD_succ _ i h0 hm,
      getD_map_of_lt (·.close) rows0 i 0 default h,
      getD_map_of_lt (·.close) rows0 (i - 1) 0 default h']
  simp [deriveRow]

/-! ### Concrete sample data used by the witnesses -/

def wAsset : Asset := ⟨"AAPL"⟩

def wBar1 : Bar :=
  { timestamp := 0, open_ := 100, high := 102, low := 99, close := 100,
    volume := 10, dividend := 2, stock_splits := 0 }

def wBar2 : Bar :=
  { timestamp := 60, open_ := 100, high := 103, low := 98, close := 101,
    volume := 20, dividend := 0, stock_splits := 0 }

def wEmptyFrame : DataFrame :=
  { rows := [], hasDividend := false, hasStockSplits := false,
    hasPriceChange := false, hasDividendYield := false, hasReturn := false }

/-! ### The claims -/

/-- C1 (amended): constructing a Bar Series from a raw table with zero rows
always raises `NoBarDataFound` — whose message interpolates the requested
source and asset — and never yields an (empty) series; the source and asset
are however not stored as structured, retrievable data on the error, only
formatted into its message string. -/
theorem C1_empty_table_raises (df : DataFrame) (s : String) (a : Asset)
    (raw : Option RawPayload) (h : df.rows = []) :
    Bars.mk? df s a raw = .error (noBarDataFound s a) ∧
      (noBarDataFound s a).message =
        s ++ " did not return data for symbol " ++ a.symbol ++
          ". Make sure there is no symbol typo or use another data source" := by
  refine ⟨?_, rfl⟩
  unfold Bars.mk?
  simp [h]

theorem C1_empty_table_raises_witness :
    wEmptyFrame.rows = [] ∧
      (Bars.mk? wEmptyFrame "alpaca" wAsset none =
          .error (noBarDataFound "alpaca" wAsset) ∧
        (noBarDataFound "alpaca" wAsset).message =
          "alpaca" ++ " did not return data for symbol " ++ wAsset.symbol ++
            ". Make sure there is no symbol typo or use another data source") :=
  ⟨rfl, C1_empty_table_raises wEmptyFrame "alpaca" wAsset none rfl⟩

/-- C1 counterexample: the error does not carry the requested source and
asset as structured, retrievable data — two different (source, asset) pairs
produce the very same exception value, so no retrieval function can recover
the pair from the error. -/
theorem C1_counterexample :
    (noBarDataFound "A did not return data for symbol B" ⟨"C"⟩ =
        noBarDataFound "A" ⟨"B did not return data for symbol C"⟩) ∧
      ("A did not return data for symbol B" ≠ "A") ∧
      ¬ ∃ f : NoBarDataFound → String × Asset,
          ∀ s a, f (noBarDataFound s a) = (s, a) := by
  refine ⟨by decide, by decide, ?_⟩
  rintro ⟨f, hf⟩
  have h1 := hf "A did not return data for symbol B" ⟨"C"⟩
  have h2 := hf "A" ⟨"B did not return data for symbol C"⟩
  have heq : noBarDataFound "A did not return data for symbol B" ⟨"C"⟩ =
      noBarDataFound "A" ⟨"B did not return data for symbol C"⟩ := by decide
  rw [heq, h2] at h1
  have : "A" = "A did not return data for symbol B" := congrArg Prod.fst h1
  exact absurd this (by decide)

/-- C2: in every frame normalized by `parse_bar_list` or by the provider
parse path, each row satisfies `dividend_yield = dividend / close` and
`return = dividend_yield + price_change` (the latter row-wise with NaN
propagation: the `return` cell is the mapped sum over the optional
`price_change` cell); on the provider path the dividend column is the
constant 0. -/
theorem C2_derived_columns :
    (∀ (bl : List Bar) (i : Nat), i < bl.length →
      ((parseFrame bl).rows.getD i default).dividend_yield =
          ((parseFrame bl).rows.getD i default).dividend /
            ((parseFrame bl).rows.getD i default).close ∧
        ((parseFrame bl).rows.getD i default).ret =
          ((parseFrame bl).rows.getD i default).price_change.map
            (fun p =>
              ((parseFrame bl).rows.getD i default).dividend_yield + p)) ∧
    (∀ (response : DataFrame) (i : Nat), i < response.rows.length →
      ((deriveAlpacaFrame response).rows.getD i default).dividend_yield =
          ((deriveAlpacaFrame response).rows.getD i default).dividend /
            ((deriveAlpacaFrame response).rows.getD i default).close ∧
        ((deriveAlpacaFrame response).rows.getD i default).ret =
          ((deriveAlpacaFrame response).rows.getD i default).price_change.map
            (fun p =>
              ((deriveAlpacaFrame response).rows.getD i default).dividend_yield
                + p) ∧
        ((deriveAlpacaFrame response).rows.getD i default).dividend = 0) := by
  constructor
  · intro bl i hi
    have h : i < (bl.map Bar.toRow).length := by
      rw [List.length_map]; exact hi
    have := derived_dividend_yield (bl.map Bar.toRow) i h
    exact ⟨this.1, this.2.1⟩
  · intro response i hi
    have h : i < (response.rows.map (fun r => { r with dividend := 0 })).length := by
      rw [List.length_map]; exact hi
    have := derived_dividend_yield
      (response.rows.map (fun r => { r with dividend := 0 })) i h
    refine ⟨this.1, this.2.1, ?_⟩
    have h22 := this.2.2
    rw [getD_map_of_lt (fun r : Row => ({ r with dividend := 0 } : Row))
      response.rows i default default hi] at h22
    exact h22

theorem C2_derived_columns_witness :
    (1 < ([wBar1, wBar2] : List Bar).length) ∧
      (((parseFrame [wBar1, wBar2]).rows.getD 1 default).dividend_yield =
          ((parseFrame [wBar1, wBar2]).rows.getD 1 default).dividend /
            ((parseFrame [wBar1, wBar2]).rows.getD 1 default).close ∧
        ((parseFrame [wBar1, wBar2]).rows.getD 1 default).ret =
          ((parseFrame [wBar1, wBar2]).rows.getD 1 default).price_change.map
            (fun p =>
              ((parseFrame [wBar1, wBar2]).rows.getD 1 default).dividend_yield
                + p)) :=
  ⟨by decide, C2_derived_columns.1 [wBar1, wBar2] 1 (by decide)⟩

/-- C3: in every frame normalized by `parse_bar_list` or by the provider
parse path, the first row's `price_change` is null (NaN), and the cell of
every row `i > 0` equals `(close[i] - close[i-1]) / close[i-1]`. -/
theorem C3_price_change :
    (∀ (bl : List Bar), bl ≠ [] →
      ((parseFrame bl).rows.getD 0 default).price_change = none) ∧
    (∀ (bl : List Bar) (i : Nat), 0 < i → i < bl.length →
      ((parseFrame bl).rows.getD i default).price_change =
        some ((((parseFrame bl).rows.getD i default).close -
               ((parseFrame bl).rows.getD (i - 1) default).close) /
              ((parseFrame bl).rows.getD (i - 1) default).close)) ∧
    (∀ (response : DataFrame), response.rows ≠ [] →
      ((deriveAlpacaFrame response).rows.getD 0 default).price_change = none) ∧
    (∀ (response : DataFrame) (i : Nat), 0 < i → i < response.rows.length →
      ((deriveAlpacaFrame response).rows.getD i default).price_change =
        some ((((deriveAlpacaFrame response).rows.getD i default).close -
               ((deriveAlpacaFrame response).rows.getD (i - 1) default).close) /
              ((deriveAlpacaFrame response).rows.getD (i - 1) default).close)) := by
  refine ⟨?_, ?_, ?_, ?_⟩
  · intro bl h
    exact derived_price_change_zero (bl.map Bar.toRow) (by simpa using h)
  · intro bl i h0 hi
    exact derived_price_change_succ (bl.map Bar.toRow) i h0
      (by rw [List.length_map]; exact hi)
  · intro response h
    exact derived_price_change_zero
      (response.rows.map (fun r => { r with dividend := 0 }))
      (by simpa using h)
  · intro response i h0 hi
    exact derived_price_change_succ
      (response.rows.map (fun r => { r with dividend := 0 })) i h0
      (by rw [List.length_map]; exact hi)

theorem C3_price_change_witness :
    (([wBar1, wBar2] : List Bar) ≠ [] ∧
      ((parseFrame [wBar1, wBar2]).rows.getD 0 default).price_change = none) ∧
    (0 < 1 ∧ 1 < ([wBar1, wBar2] : List Bar).length ∧
      ((parseFrame [wBar1, wBar2]).rows.getD 1 default).price_change =
        some ((((parseFrame [wBar1, wBar2]).rows.getD 1 default).close -
               ((parseFrame [wBar1, wBar2]).rows.getD 0 default).close) /
              ((parseFrame [wBar1, wBar2]).rows.getD 0 default).close)) :=
  ⟨⟨by decide, C3_price_change.1 [wBar1, wBar2] (by decide)⟩,
   ⟨by decide, by decide,
    C3_price_change.2.1 [wBar1, wBar2] 1 (by decide) (by decide)⟩⟩

/-- C4 (code bug): the provider fetch/normalize path never produces a Bar
Series at all — `_parse_source_symbol_bars` invokes the `Bars` constructor as
`Bars(df, raw=response)`, omitting the required positional `source` and
`asset` arguments, so every invocation (for any per-symbol frame, empty or
not) raises `TypeError` before the series can be built, and
`_parse_source_bars` aborts on its first symbol the same way. -/
theorem C4_parse_source_bars_crashes :
    (∀ response : DataFrame,
      parse_source_symbol_bars response =
        .error (.typeError
          "__init__() missing 2 required positional arguments: source and asset")) ∧
    (∀ (sym : String) (df : DataFrame) (rest : List (String × DataFrame)),
      parse_source_bars ((sym, df) :: rest) =
        .error (.typeError
          "__init__() missing 2 required positional arguments: source and asset")) := by
  constructor
  · intro response; rfl
  · intro sym df rest; rfl

/-- C5 (amended): the empty-result gate runs inside the constructor on every
construction path, so every successfully constructed Bar Series is non-empty;
a series built by `parse_bar_list` carries all the derived columns, but a
series built by `aggregate_bars` is live while carrying only the five
aggregated OHLCV columns — none of the derived columns are present on it. -/
theorem C5_live_series :
    (∀ (df : DataFrame) (s : String) (a : Asset) (raw : Option RawPayload)
        (b : Bars), Bars.mk? df s a raw = .ok b → b.df.rows ≠ []) ∧
    (∀ (bl : List Bar) (s : String) (a : Asset) (b : Bars),
        parse_bar_list bl s a = .ok b →
          b.df.rows ≠ [] ∧ b.df.hasPriceChange = true ∧
            b.df.hasDividend = true ∧ b.df.hasDividendYield = true ∧
            b.df.hasReturn = true) ∧
    (∀ (b : Bars) (w : Nat) (b2 : Bars),
        b.aggregate_bars w = .ok b2 →
          b2.df.rows ≠ [] ∧ b2.df.hasPriceChange = false ∧
            b2.df.hasDividend = false ∧ b2.df.hasDividendYield = false ∧
            b2.df.hasReturn = false) := by
  refine ⟨?_, ?_, ?_⟩
  · intro df s a raw b h
    have h' := mk?_ok df s a raw b h
    rw [h'.1]
    exact h'.2.2.2.2.2
  · intro bl s a b h
    have h' := mk?_ok (parseFrame bl) s a (some (.barList bl)) b h
    rw [h'.1]
    exact ⟨h'.2.2.2.2.2, rfl, rfl, rfl, rfl⟩
  · intro b w b2 h
    have h' := mk?_ok (aggregateDf w b.df) b.source b.asset none b2 h
    rw [h'.1]
    exact ⟨h'.2.2.2.2.2, rfl, rfl, rfl, rfl⟩

def wBars1 : Bars :=
  { df := parseFrame [wBar1], source := "alpaca".toUpper, asset := wAsset,
    symbol := wAsset.symbol.toUpper, raw := some (.barList [wBar1]) }

def wBars2 : Bars :=
  { df := aggregateDf 60 wBars1.df, source := wBars1.source.toUpper,
    asset := wBars1.asset, symbol := wBars1.asset.symbol.toUpper, raw := none }

theorem C5_live_series_witness :
    (wBars1.df.rows ≠ [] ∧ wBars1.df.hasPriceChange = true ∧
      wBars1.df.hasDividend = true ∧ wBars1.df.hasDividendYield = true ∧
      wBars1.df.hasReturn = true) ∧
    (wBars2.df.rows ≠ [] ∧ wBars2.df.hasPriceChange = false ∧
      wBars2.df.hasDividend = false ∧ wBars2.df.hasDividendYield = false ∧
      wBars2.df.hasReturn = false) :=
  ⟨C5_live_series.2.1 [wBar1] "alpaca" wAsset wBars1
      (mk?_ok_of_ne_nil (parseFrame [wBar1]) "alpaca" wAsset
        (some (.barList [wBar1])) (by decide)),
   C5_live_series.2.2 wBars1 60 wBars2
      (mk?_ok_of_ne_nil (aggregateDf 60 wBars1.df) wBars1.source wBars1.asset
        none (by decide))⟩

theorem getLastD_map_cons {α β : Type} (f : α → β) (a : α) (l : List α)
    (d : β) : ((a :: l).map f).getLastD d = f ((a :: l).getLastD a) := by
  induction l generalizing a d with
  | nil => rfl
  | cons x xs ih =>
    have e1 : (x :: xs).getLastD a = (x :: xs).getLastD x := by
      rw [List.getLastD_cons, List.getLastD_cons]
    rw [List.map_cons, List.getLastD_cons, List.getLastD_cons, e1]
    exact ih x (f a)

theorem pctChangeK_last (x0 : ℚ) (rest : List ℚ) :
    (pctChangeK ((x0 :: rest).length - 1) (x0 :: rest)).getLastD none =
      some (((x0 :: rest).getLastD 0 - x0) / x0) := by
  have h2 : (x0 :: rest).length - 1 = rest.length := by simp
  unfold pctChangeK
  rw [h2, List.length_cons, List.range_succ, List.map_append]
  simp only [List.map_cons, List.map_nil]
  rw [List.getLastD_eq_getLast?, List.getLast?_concat]
  simp only [Option.getD_some, le_refl, if_true, ite_true, Nat.sub_self,
    List.getD_cons_zero]
  rw [← h2, getD_eq_getLastD]

theorem filterDf_rows (b : Bars) (s e : Option Nat) :
    (b.filterDf s e).rows = b.df.rows.filter
      (fun r => (match s with
                 | some s0 => decide (s0 ≤ r.timestamp)
                 | none => true) &&
                (match e with
                 | some e0 => decide (r.timestamp ≤ e0)
                 | none => true)) := by
  unfold Bars.filterDf
  cases s with
  | none =>
    cases e with
    | none => simp
    | some e0 => simp
  | some s0 =>
    cases e with
    | none => simp
    | some e0 =>
      simp only [List.filter_filter]
      exact List.filter_congr (fun r _ => by rw [Bool.and_comm])

/-- C7: `get_momentum` filters the rows to the inclusive window `[start,
end]`, returns 0 on an empty window, and otherwise returns the fractional
change from the close of the first row of the window to the close of its
last row (the percent change over the full span of the window). -/
theorem C7_momentum (b : Bars) (s e : Option Nat) :
    (b.filterDf s e).rows = b.df.rows.filter
        (fun r => (match s with
                   | some s0 => decide (s0 ≤ r.timestamp)
                   | none => true) &&
                  (match e with
                   | some e0 => decide (r.timestamp ≤ e0)
                   | none => true)) ∧
      ((b.filterDf s e).rows = [] → b.get_momentum s e = some 0) ∧
      (∀ (r0 : Row) (rs : List Row), (b.filterDf s e).rows = r0 :: rs →
        b.get_momentum s e =
          some ((((r0 :: rs).getLastD r0).close - r0.close) / r0.close)) := by
  refine ⟨filterDf_rows b s e, ?_, ?_⟩
  · intro h
    simp [Bars.get_momentum, h]
  · intro r0 rs h
    simp only [Bars.get_momentum, h]
    rw [if_neg (by simp)]
    have H := pctChangeK_last r0.close (rs.map (·.close))
    rw [List.map_cons]
    simp only [List.length_cons, List.length_map, Nat.add_sub_cancel] at H ⊢
    rw [H, ← List.map_cons, getLastD_map_cons]

def wRow1 : Row :=
  { timestamp := 0, open_ := 100, high := 102, low := 99, close := 100,
    volume := 10, dividend := 0, stock_splits := 0, price_change := none,
    dividend_yield := 0, ret := none }

def wRow2 : Row :=
  { timestamp := 60, open_ := 100, high := 103, low := 98, close := 101,
    volume := 20, dividend := 0, stock_splits := 0, price_change := none,
    dividend_yield := 0, ret := none }

def wRow3 : Row :=
  { timestamp := 120, open_ := 101, high := 104, low := 97, close := 99,
    volume := 30, dividend := 0, stock_splits := 0, price_change := none,
    dividend_yield := 0, ret := none }

def wBars3 : Bars :=
  { df := { rows := [wRow1, wRow2, wRow3], hasDividend := false,
            hasStockSplits := false, hasPriceChange := false,
            hasDividendYield := false, hasReturn := false },
    source := "ALPACA", asset := wAsset, symbol := "AAPL", raw := none }

theorem C7_momentum_witness :
    ((wBars3.filterDf (some 0) (some 120)).rows = [wRow1, wRow2, wRow3]) ∧
      wBars3.get_momentum (some 0) (some 120) = some (-1 / 100) := by
  refine ⟨rfl, ?_⟩
  have h := (C7_momentum wBars3 (some 0) (some 120)).2.2 wRow1 [wRow2, wRow3]
    rfl
  rw [h]
  simp only [List.getLastD_cons, List.getLastD_nil, wRow1, wRow3,
    Option.some.injEq]
  norm_num

/-- C10: on any window that contains exactly one row (of a series with
nonzero closes, the modelled domain), `get_momentum` returns 0, not
null/NaN, even though the zero-row case is the only one the spec spells
out. -/
theorem C10_single_row_momentum (b : Bars) (s e : Option Nat)
    (hv : ∀ r ∈ b.df.rows, r.close ≠ 0) (r0 : Row)
    (h : (b.filterDf s e).rows = [r0]) :
    b.get_momentum s e = some 0 := by
  simp only [Bars.get_momentum, h]
  rw [if_neg (by simp)]
  have hr : List.range 1 = [0] := rfl
  simp [pctChangeK, hr, List.getLastD_cons]

theorem C10_single_row_momentum_witness :
    (∀ r ∈ wBars3.df.rows, r.close ≠ 0) ∧
      (wBars3.filterDf (some 100) (some 130)).rows = [wRow3] ∧
      wBars3.get_momentum (some 100) (some 130) = some 0 :=
  ⟨by decide, rfl,
   C10_single_row_momentum wBars3 (some 100) (some 130) (by decide) wRow3 rfl⟩

theorem parseFrame_map {α : Type} (bl : List Bar) (f : Row → α)
    (hf : ∀ r pc, f (deriveRow r pc) = f r) :
    (parseFrame bl).rows.map f = (bl.map Bar.toRow).map f := by
  show (applyDerived (bl.map Bar.toRow)
    (pctChange ((bl.map Bar.toRow).map (·.close)))).map f = _
  apply applyDerived_map
  · simp [pctChange_length]
  · exact hf

theorem parseFrame_rows_length (bl : List Bar) :
    (parseFrame bl).rows.length = bl.length := by
  show (applyDerived (bl.map Bar.toRow)
    (pctChange ((bl.map Bar.toRow).map (·.close)))).length = _
  simp [applyDerived_length, pctChange_length]

/-- C8: decomposing a series with `split()` and re-normalizing the resulting
bar records through `parse_bar_list` succeeds and reproduces the original
timestamp, open, high, low, close and volume of every row exactly (the
derived columns are recomputed by the re-normalization rather than copied
over). -/
theorem C8_split_roundtrip (b : Bars) (s : String) (a : Asset)
    (h : b.df.rows ≠ []) :
    ∃ b2 : Bars, parse_bar_list (b.split) s a = .ok b2 ∧
      b2.df.rows.map (·.timestamp) = b.df.rows.map (·.timestamp) ∧
      b2.df.rows.map (·.open_) = b.df.rows.map (·.open_) ∧
      b2.df.rows.map (·.high) = b.df.rows.map (·.high) ∧
      b2.df.rows.map (·.low) = b.df.rows.map (·.low) ∧
      b2.df.rows.map (·.close) = b.df.rows.map (·.close) ∧
      b2.df.rows.map (·.volume) = b.df.rows.map (·.volume) := by
  have hne : (parseFrame (b.split)).rows ≠ [] := by
    intro hcon
    apply h
    have hlen := parseFrame_rows_length (b.split)
    rw [hcon] at hlen
    have : b.df.rows.length = 0 := by
      simp [Bars.split] at hlen
      exact hlen.symm
    exact List.eq_nil_of_length_eq_zero this
  refine ⟨_, mk?_ok_of_ne_nil (parseFrame (b.split)) s a
    (some (.barList (b.split))) hne, ?_, ?_, ?_, ?_, ?_, ?_⟩
  · rw [parseFrame_map (b.split) (·.timestamp) (fun r pc => rfl),
        List.map_map, Bars.split, List.map_map]
    rfl
  · rw [parseFrame_map (b.split) (·.open_) (fun r pc => rfl),
        List.map_map, Bars.split, List.map_map]
    rfl
  · rw [parseFrame_map (b.split) (·.high) (fun r pc => rfl),
        List.map_map, Bars.split, List.map_map]
    rfl
  · rw [parseFrame_map (b.split) (·.low) (fun r pc => rfl),
        List.map_map, Bars.split, List.map_map]
    rfl
  · rw [parseFrame_map (b.split) (·.close) (fun r pc => rfl),
        List.map_map, Bars.split, List.map_map]
    rfl
  · rw [parseFrame_map (b.split) (·.volume) (fun r pc => rfl),
        List.map_map, Bars.split, List.map_map]
    rfl

theorem C8_split_roundtrip_witness :
    wBars3.df.rows ≠ [] ∧
      (∃ b2 : Bars, parse_bar_list (wBars3.split) "yahoo" wAsset = .ok b2 ∧
        b2.df.rows.map (·.timestamp) = wBars3.df.rows.map (·.timestamp) ∧
        b2.df.rows.map (·.open_) = wBars3.df.rows.map (·.open_) ∧
        b2.df.rows.map (·.high) = wBars3.df.rows.map (·.high) ∧
        b2.df.rows.map (·.low) = wBars3.df.rows.map (·.low) ∧
        b2.df.rows.map (·.close) = wBars3.df.rows.map (·.close) ∧
        b2.df.rows.map (·.volume) = wBars3.df.rows.map (·.volume)) :=
  ⟨by decide, C8_split_roundtrip wBars3 "yahoo" wAsset (by decide)⟩

theorem sorted_le_getLastD (g0 : Row) (gs : List Row)
    (hp : (g0 :: gs).Pairwise (fun r r2 => r.timestamp < r2.timestamp)) :
    ∀ r ∈ g0 :: gs, r.timestamp ≤ ((g0 :: gs).getLastD g0).timestamp := by
  induction gs generalizing g0 with
  | nil =>
    intro r hr
    rcases List.mem_cons.mp hr with h1 | h1
    · rw [h1]
      exact Nat.le_refl _
    · simp at h1
  | cons x xs ih =>
    intro r hr
    have hp' : (x :: xs).Pairwise (fun r r2 => r.timestamp < r2.timestamp) :=
      (List.pairwise_cons.mp hp).2
    have hlast : ((g0 :: x :: xs).getLastD g0) = ((x :: xs).getLastD x) := by
      rw [List.getLastD_cons, List.getLastD_cons, List.getLastD_cons]
    rw [hlast]
    rcases List.mem_cons.mp hr with h1 | h1
    · have hx : g0.timestamp < x.timestamp :=
        (List.pairwise_cons.mp hp).1 x (by simp)
      have hxlast := ih x hp' x (by simp)
      rw [h1]
      exact le_trans (le_of_lt hx) hxlast
    · exact ih x hp' r h1

/-- C6: `aggregate_bars` re-resamples the rows into fixed-width buckets; per
bucket the aggregated row takes the first row's open, the last row's close,
the minimum low, the maximum high and the summed volume; buckets holding no
row are dropped rather than emitted; the result is re-validated through the
ordinary constructor, so an aggregation yielding zero buckets raises the
same empty-result error as raw normalization. -/
theorem C6_aggregate_bars (b : Bars) (w : Nat)
    (hs : b.df.rows.Pairwise (fun r r2 => r.timestamp < r2.timestamp)) :
    b.aggregate_bars w = Bars.mk? (aggregateDf w b.df) b.source b.asset none ∧
    (aggregateDf w b.df).rows =
      (aggKeys w b.df.rows).filterMap (fun k =>
        match groupRows w k b.df.rows with
        | [] => none
        | g0 :: gs => some
            { timestamp := k, open_ := g0.open_,
              close := ((g0 :: gs).getLast?.getD g0).close,
              low := ((g0 :: gs).map (·.low)).min?.getD 0,
              high := ((g0 :: gs).map (·.high)).max?.getD 0,
              volume := ((g0 :: gs).map (·.volume)).sum,
              dividend := 0, stock_splits := 0, price_change := none,
              dividend_yield := 0, ret := none }) ∧
    (∀ k, groupRows w k b.df.rows = [] →
      ∀ row ∈ (aggregateDf w b.df).rows, row.timestamp ≠ k) ∧
    (∀ k g0 gs, groupRows w k b.df.rows = g0 :: gs →
      (∀ r ∈ g0 :: gs, g0.timestamp ≤ r.timestamp) ∧
      (∀ r ∈ g0 :: gs, r.timestamp ≤ ((g0 :: gs).getLastD g0).timestamp)) ∧
    ((aggregateDf w b.df).rows = [] →
      b.aggregate_bars w = .error (noBarDataFound b.source b.asset)) := by
  have hfun : ∀ k, aggRow k (groupRows w k b.df.rows) =
      (match groupRows w k b.df.rows with
       | [] => none
       | g0 :: gs => some
           { timestamp := k, open_ := g0.open_,
             close := ((g0 :: gs).getLast?.getD g0).close,
             low := ((g0 :: gs).map (·.low)).min?.getD 0,
             high := ((g0 :: gs).map (·.high)).max?.getD 0,
             volume := ((g0 :: gs).map (·.volume)).sum,
             dividend := 0, stock_splits := 0, price_change := none,
             dividend_yield := 0, ret := none }) := by
    intro k
    cases hg : groupRows w k b.df.rows with
    | nil => rfl
    | cons g0 gs => rfl
  refine ⟨rfl, ?_, ?_, ?_, ?_⟩
  · show (aggKeys w b.df.rows).filterMap
      (fun k => aggRow k (groupRows w k b.df.rows)) = _
    simp only [hfun]
  · intro k hgk row hrow
    have hmem : ∃ k2, k2 ∈ aggKeys w b.df.rows ∧
        aggRow k2 (groupRows w k2 b.df.rows) = some row := by
      simpa [aggregateDf, List.mem_filterMap] using hrow
    obtain ⟨k2, -, hk2⟩ := hmem
    cases hg : groupRows w k2 b.df.rows with
    | nil => rw [hg] at hk2; exact absurd hk2 (by simp [aggRow])
    | cons g0 gs =>
      rw [hg] at hk2
      have ht : row.timestamp = k2 := by
        simp only [aggRow, Option.some.injEq] at hk2
        rw [← hk2]
      intro he
      rw [he] at ht
      rw [ht] at hgk
      rw [hgk] at hg
      exact List.noConfusion hg
  · intro k g0 gs hg
    have hpair : (groupRows w k b.df.rows).Pairwise
        (fun r r2 => r.timestamp < r2.timestamp) :=
      hs.sublist (List.filter_sublist _)
    rw [hg] at hpair
    constructor
    · intro r hr
      rcases List.mem_cons.mp hr with h1 | h1
      · rw [h1]
      · exact le_of_lt ((List.pairwise_cons.mp hpair).1 r h1)
    · exact sorted_le_getLastD g0 gs hpair
  · intro hempty
    show Bars.mk? (aggregateDf w b.df) b.source b.asset none = _
    unfold Bars.mk?
    rw [if_pos (by rw [hempty]; rfl)]

theorem digit_isDigit (n : Nat) : (Nat.digitChar (n % 10)).isDigit = true := by
  have h : ∀ d, d < 10 → (Nat.digitChar d).isDigit = true := by decide
  exact h _ (Nat.mod_lt _ (by norm_num))

theorem isoformat_isIso8601 (dt : PyDatetime) (off : Int) :
    isIso8601 (isoformat dt off).data = true := by
  have hsign : ((if off < 0 then '-' else '+') == '+' ||
      (if off < 0 then '-' else '+') == '-') = true := by
    split <;> rfl
  show isIso8601 (pad4 dt.year ++ ['-'] ++ pad2 dt.month ++ ['-'] ++
    pad2 dt.day ++ ['T'] ++ pad2 dt.hour ++ [':'] ++ pad2 dt.minute ++
    [':'] ++ pad2 dt.second ++ offsetChars off) = true
  simp [pad4, pad2, offsetChars, isIso8601, digit_isDigit, hsign]

/-- C9: every datetime the Fetcher hands to the provider is emitted as an
ISO-8601 string; an aware datetime is formatted with its own UTC offset
unchanged, while a naive one is first localized to the fixed reference
market timezone America/New_York before formatting; the optional `end`
argument of the provider call is exactly such a formatted string. -/
theorem C9_format_datetime :
    (∀ (dt : PyDatetime) (off : Int), dt.tzOffsetMinutes = some off →
      format_datetime dt = isoformat dt off) ∧
    (∀ dt : PyDatetime, dt.tzOffsetMinutes = none →
      format_datetime dt = isoformat dt (nyOffsetMinutes dt)) ∧
    (∀ dt : PyDatetime, isIso8601 (format_datetime dt).data = true) ∧
    (∀ (endDt : Option PyDatetime) (str : String),
      pull_source_bars_end endDt = some str → isIso8601 str.data = true) ∧
    pull_source_bars_end none = none := by
  have hall : ∀ dt : PyDatetime, isIso8601 (format_datetime dt).data = true := by
    intro dt
    obtain ⟨y, mo, da, ho, mi, se, tz⟩ := dt
    cases tz with
    | none => exact isoformat_isIso8601 _ _
    | some off => exact isoformat_isIso8601 _ off
  refine ⟨?_, ?_, hall, ?_, rfl⟩
  · intro dt off h
    simp [format_datetime, h]
  · intro dt h
    simp [format_datetime, h]
  · intro endDt str h
    cases endDt with
    | none => simp [pull_source_bars_end] at h
    | some dt =>
      simp only [pull_source_bars_end, Option.map_some',
        Option.some.injEq] at h
      rw [← h]
      exact hall dt

def wDtAware : PyDatetime :=
  { year := 2021, month := 3, day := 1, hour := 9, minute := 30, second := 0,
    tzOffsetMinutes := some (-300) }

def wDtNaive : PyDatetime :=
  { year := 2021, month := 7, day := 1, hour := 9, minute := 30, second := 0,
    tzOffsetMinutes := none }

theorem C9_format_datetime_witness :
    (wDtAware.tzOffsetMinutes = some (-300) ∧
      format_datetime wDtAware = isoformat wDtAware (-300)) ∧
    (wDtNaive.tzOffsetMinutes = none ∧
      format_datetime wDtNaive = isoformat wDtNaive (nyOffsetMinutes wDtNaive)) ∧
    isIso8601 (format_datetime wDtAware).data = true :=
  ⟨⟨rfl, C9_format_datetime.1 wDtAware (-300) rfl⟩,
   ⟨rfl, C9_format_datetime.2.1 wDtNaive rfl⟩,
   C9_format_datetime.2.2.1 wDtAware⟩

theorem C6_aggregate_bars_witness :
    (wBars3.df.rows.Pairwise (fun r r2 => r.timestamp < r2.timestamp)) ∧
      wBars3.aggregate_bars 120 =
        Bars.mk? (aggregateDf 120 wBars3.df) wBars3.source wBars3.asset none :=
  ⟨by decide, (C6_aggregate_bars wBars3 120 (by decide)).1⟩

/-- C5 counterexample: aggregating a live one-row series produces a live
(successfully constructed, non-empty) Bar Series on which none of the derived
columns are present, refuting the claim that every live instance has
price_change, dividend, dividend_yield and return present. -/
theorem C5_counterexample :
    (((parse_bar_list [wBar1] "alpaca" wAsset).bind
        (fun b => b.aggregate_bars 60)).toOption.map
      (fun b => (b.df.rows.length, b.df.hasPriceChange, b.df.hasDividend,
                 b.df.hasDividendYield, b.df.hasReturn))) =
      some (1, false, false, false, false) := by
  decide

end Lumibot
